import Mathlib

/-
Verification of the cloud-options configuration-resolution module
(crates/polars-io/src/cloud/options.rs): URL classification, config-key
typing, credential-file fallback, region resolution with a bounded
bucket-to-region cache, and retry-policy construction.

External collaborators (the object_store builder key enumerations, the url
crate's parser, the regex engine, the filesystem and the network probe) are
embedded as explicit parameters or as small enumerations restricted to the
keys this module touches, so that every code path of the module itself is
modelled faithfully and executably.
-/

namespace PolarsCloud

/-- Error type: the module only ever raises ComputeError values
(via polars_err! / polars_bail! / to_compute_err). -/
inductive PolarsError where
  | ComputeError (msg : String)
deriving DecidableEq, Repr

/-- Decidable equality for Except results, used to evaluate the model on
concrete inputs. -/
def exceptDecEq {ε α : Type} [DecidableEq ε] [DecidableEq α] :
    (a b : Except ε α) → Decidable (a = b)
  | .ok a, .ok b => if h : a = b then .isTrue (by rw [h]) else .isFalse (by simp [h])
  | .ok _, .error _ => .isFalse (by simp)
  | .error _, .ok _ => .isFalse (by simp)
  | .error e, .error f => if h : e = f then .isTrue (by rw [h]) else .isFalse (by simp [h])

instance {ε α : Type} [DecidableEq ε] [DecidableEq α] : DecidableEq (Except ε α) :=
  exceptDecEq

/-- Provider tag, from `enum CloudType` in options.rs. -/
inductive CloudType where
  | Aws
  | Azure
  | File
  | Gcp
  | Http
deriving DecidableEq, Repr

/-- Scheme-to-provider mapping of `CloudType::from_url` (options.rs lines
119-128), taking the already-extracted URL scheme.  The Rust code matches on
`parsed.scheme()`; the match arms are reproduced as an if-chain in source
order. -/
def CloudType.from_scheme (s : String) : Except PolarsError CloudType :=
  if s = "s3" ∨ s = "s3a" then .ok .Aws
  else if s = "az" ∨ s = "azure" ∨ s = "adl" ∨ s = "abfs" ∨ s = "abfss" then .ok .Azure
  else if s = "gs" ∨ s = "gcp" ∨ s = "gcs" then .ok .Gcp
  else if s = "file" then .ok .File
  else if s = "http" ∨ s = "https" then .ok .Http
  else .error (.ComputeError "unknown url scheme")

/-- Whether the input contains the scheme separator "://"
(the `input.contains("://")` test of parse_url). -/
def hasSchemeSep : List Char → Bool
  | ':' :: '/' :: '/' :: _ => true
  | _ :: rest => hasSchemeSep rest
  | [] => false

/-- The characters strictly before the first "://" occurrence, if any. -/
def takeScheme : List Char → Option (List Char)
  | ':' :: '/' :: '/' :: _ => some []
  | c :: rest => (takeScheme rest).map (c :: ·)
  | [] => none

/-- The characters strictly after the first "://" occurrence, if any. -/
def takeAfterSep : List Char → Option (List Char)
  | ':' :: '/' :: '/' :: rest => some rest
  | _ :: rest => takeAfterSep rest
  | [] => none

/-- Percent-encoding performed by url::Url::from_file_path, restricted to
path strings whose characters are unreserved or the space character (the
only character the spec and tests exercise): a space becomes "%20", every
other character is kept. -/
def pencode : List Char → List Char
  | [] => []
  | c :: rest => if c = ' ' then '%' :: '2' :: '0' :: pencode rest else c :: pencode rest

/-- Percent-decoding inverse used when a file:// URL is re-parsed to a
filesystem path: "%20" becomes a space, everything else is kept. -/
def pdecode : List Char → List Char
  | [] => []
  | [c] => [c]
  | [c, d] => [c, d]
  | c :: d :: e :: rest =>
    if c = '%' ∧ d = '2' ∧ e = '0' then ' ' :: pdecode rest
    else c :: pdecode (d :: e :: rest)

/-- `Path::is_relative` on unix: the path does not start with '/'. -/
def startsWithSlash : List Char → Bool
  | '/' :: _ => true
  | _ => false

/-- `parse_url` (options.rs lines 131-147).  If the input contains "://" it
is handed to the external url parser (`urlParseExt`, the url crate's
Url::parse).  Otherwise the input is treated as a filesystem path: a
relative path (one not starting with '/', on unix) is resolved against the
current working directory `cwd` (std::env::current_dir, passed explicitly;
PathBuf::push inserts the separator), and the absolute path becomes a
file:// URL with percent-encoding (Url::from_file_path). -/
def parse_url (urlParseExt : String → Option String) (cwd : String) (input : String) :
    Option String :=
  if hasSchemeSep input.data then urlParseExt input
  else
    let path := if startsWithSlash input.data then input else cwd ++ "/" ++ input
    some ("file://" ++ String.mk (pencode path.data))

/-- Re-parsing a file:// URL back into the filesystem path it denotes
(Url::to_file_path direction, restricted as in `pencode`). -/
def toLocalPath (url : String) : Option String :=
  match url.data with
  | 'f' :: 'i' :: 'l' :: 'e' :: ':' :: '/' :: '/' :: rest => some (String.mk (pdecode rest))
  | _ => none

/-- `CloudType::from_str` (options.rs lines 149-157): parse the URL, then
classify by its scheme.  A parsed URL's scheme is the lowercased text before
"://" when the separator is present, and "file" otherwise, since the
no-separator branch of parse_url always builds a file:// URL. -/
def CloudType.from_str (url : String) : Except PolarsError CloudType :=
  match takeScheme url.data with
  | some s => CloudType.from_scheme (String.mk (s.map Char.toLower))
  | none => .ok .File

/-- `parsed_untyped_config` (options.rs lines 90-106), generic over the
provider key type exactly as the Rust function is generic over
`T: FromStr`; `parseKey` embeds the external `T::from_str`.  The iterator
map + collect into a Result stops at the first key that fails to parse and
returns that error; on success every pair is retained in input order. -/
def parsed_untyped_config {T : Type} (parseKey : String → Option T) :
    List (String × String) → Except PolarsError (List (T × String))
  | [] => .ok []
  | (key, val) :: rest =>
    match parseKey key with
    | none => .error (.ComputeError ("unknown configuration key: " ++ key))
    | some tk =>
      match parsed_untyped_config parseKey rest with
      | .ok tl => .ok ((tk, val) :: tl)
      | .error e => .error e

/-- The subset of the external object_store::aws::AmazonS3ConfigKey
enumeration that options.rs touches by name. -/
inductive AmazonS3ConfigKey where
  | AccessKeyId
  | SecretAccessKey
  | Token
  | Region
  | DefaultRegion
  | Endpoint
deriving DecidableEq, Repr

/-- The string-to-key mapping of the external AmazonS3ConfigKey FromStr
implementation, restricted to the keys above; every other string fails. -/
def parseAwsKey (s : String) : Option AmazonS3ConfigKey :=
  if s = "access_key_id" ∨ s = "aws_access_key_id" then some .AccessKeyId
  else if s = "secret_access_key" ∨ s = "aws_secret_access_key" then some .SecretAccessKey
  else if s = "token" ∨ s = "aws_token" ∨ s = "session_token" ∨ s = "aws_session_token" then
    some .Token
  else if s = "region" ∨ s = "aws_region" then some .Region
  else if s = "default_region" ∨ s = "aws_default_region" then some .DefaultRegion
  else if s = "endpoint" ∨ s = "endpoint_url" ∨ s = "aws_endpoint" ∨ s = "aws_endpoint_url" then
    some .Endpoint
  else none

/-- Stand-ins for the external Azure / GCP key enumerations: their details
are irrelevant here, from_untyped_config is settled for the File and Http
arms and the AWS arm. -/
inductive AzureConfigKey where
  | AccountName
  | AccountKey
deriving DecidableEq, Repr

/-- Stand-in for the external GoogleConfigKey enumeration. -/
inductive GoogleConfigKey where
  | ServiceAccount
  | Bucket
deriving DecidableEq, Repr

/-- `struct CloudOptions` (options.rs lines 60-70): max retries, the
downstream file-cache TTL, and one optional ordered typed-config list per
provider. -/
structure CloudOptions where
  max_retries : Nat
  file_cache_ttl : Nat
  aws : Option (List (AmazonS3ConfigKey × String))
  azure : Option (List (AzureConfigKey × String))
  gcp : Option (List (GoogleConfigKey × String))
deriving DecidableEq, Repr

/-- `impl Default for CloudOptions` (options.rs lines 72-86): max_retries 2,
TTL from the environment (`get_env_file_cache_ttl`, passed explicitly as
`ttl`), and no provider configs. -/
def CloudOptions.default (ttl : Nat) : CloudOptions :=
  ⟨2, ttl, none, none, none⟩

/-- `CloudOptions::with_max_retries` (options.rs lines 217-220). -/
def CloudOptions.with_max_retries (o : CloudOptions) (max_retries : Nat) : CloudOptions :=
  { o with max_retries := max_retries }

/-- `CloudOptions::with_aws` (options.rs lines 224-235). -/
def CloudOptions.with_aws (o : CloudOptions) (configs : List (AmazonS3ConfigKey × String)) :
    CloudOptions :=
  { o with aws := some configs }

/-- `CloudOptions::with_azure` (options.rs lines 327-338). -/
def CloudOptions.with_azure (o : CloudOptions) (configs : List (AzureConfigKey × String)) :
    CloudOptions :=
  { o with azure := some configs }

/-- `CloudOptions::with_gcp` (options.rs lines 361-372). -/
def CloudOptions.with_gcp (o : CloudOptions) (configs : List (GoogleConfigKey × String)) :
    CloudOptions :=
  { o with gcp := some configs }

/-- `CloudOptions::from_untyped_config` (options.rs lines 395-436), with all
provider features compiled in.  The external Azure and GCP FromStr
implementations are passed as `parseAzureKey` / `parseGcpKey`; `ttl` feeds
`CloudOptions.default`. -/
def CloudOptions.from_untyped_config
    (parseAzureKey : String → Option AzureConfigKey)
    (parseGcpKey : String → Option GoogleConfigKey)
    (ttl : Nat) (url : String) (config : List (String × String)) :
    Except PolarsError CloudOptions :=
  match CloudType.from_str url with
  | .error e => .error e
  | .ok .Aws =>
    match parsed_untyped_config parseAwsKey config with
    | .ok aws => .ok ((CloudOptions.default ttl).with_aws aws)
    | .error e => .error e
  | .ok .Azure =>
    match parsed_untyped_config parseAzureKey config with
    | .ok az => .ok ((CloudOptions.default ttl).with_azure az)
    | .error e => .error e
  | .ok .File => .ok (CloudOptions.default ttl)
  | .ok .Http => .ok (CloudOptions.default ttl)
  | .ok .Gcp =>
    match parsed_untyped_config parseGcpKey config with
    | .ok gcp => .ok ((CloudOptions.default ttl).with_gcp gcp)
    | .error e => .error e

/-- External object_store BackoffConfig, used only through its Default. -/
inductive BackoffConfig where
  | default
deriving DecidableEq, Repr

/-- External object_store RetryConfig as options.rs populates it
(retry_timeout is Duration::from_secs(10), recorded in seconds). -/
structure RetryConfig where
  backoff : BackoffConfig
  max_retries : Nat
  retry_timeout_secs : Nat
deriving DecidableEq, Repr

/-- `get_retry_config` (options.rs lines 164-170). -/
def get_retry_config (max_retries : Nat) : RetryConfig :=
  ⟨BackoffConfig.default, max_retries, 10⟩

/-- External AmazonS3Builder, viewed through the only interface options.rs
uses: per-key configuration values (`with_config` writes,
`get_config_value` reads).  `AmazonS3Builder::from_env` is an arbitrary
initial builder passed to build_aws as `env`. -/
structure S3Builder where
  cfg : AmazonS3ConfigKey → Option String

/-- `AmazonS3Builder::get_config_value`. -/
def S3Builder.get (b : S3Builder) (k : AmazonS3ConfigKey) : Option String :=
  b.cfg k

/-- `AmazonS3Builder::with_config`. -/
def S3Builder.set (b : S3Builder) (k : AmazonS3ConfigKey) (v : String) : S3Builder :=
  ⟨fun j => if j = k then some v else b.cfg j⟩

/-- Inner loop of `read_config` (options.rs lines 202-210): for each
(pattern, key) pair whose key is still unset, run the regex capture
(`capture pat content`, embedding Regex::captures + group 1) and set the
key to the captured text.  A capture failure aborts via the `?` operator;
the Bool records whether the loop ran to completion, and the builder keeps
the mutations made before the abort (it is a &mut in Rust). -/
def applyKeys (capture : String → String → Option String) :
    S3Builder → List (String × AmazonS3ConfigKey) → String → S3Builder × Bool
  | b, [], _ => (b, true)
  | b, (pat, key) :: rest, content =>
    if (b.get key).isSome then applyKeys capture b rest content
    else
      match capture pat content with
      | some v => applyKeys capture (b.set key v) rest content
      | none => (b, false)

/-- `read_config` (options.rs lines 185-213).  `fs` embeds
File::open + read_to_end + utf8 decoding of a path (None on any failure,
which aborts the whole call via `?`/`ok()?`).  The second component lists
every path on which a file open was attempted, in order; a group whose
target keys are all already set is skipped without touching its file. -/
def readConfig (fs : String → Option String) (capture : String → String → Option String) :
    S3Builder → List (String × List (String × AmazonS3ConfigKey)) → S3Builder × List String
  | b, [] => (b, [])
  | b, (path, keys) :: rest =>
    if keys.all (fun pk => (b.get pk.2).isSome) then readConfig fs capture b rest
    else
      match fs path with
      | none => (b, [path])
      | some content =>
        match applyKeys capture b keys content with
        | (b1, true) =>
          let r := readConfig fs capture b1 rest
          (r.1, path :: r.2)
        | (b1, false) => (b1, [path])

/-- The first read_config call in build_aws (options.rs lines 248-254). -/
def awsConfigGroups : List (String × List (String × AmazonS3ConfigKey)) :=
  [("~/.aws/config", [("region = (.*)\n", .Region)])]

/-- The second read_config call in build_aws (options.rs lines 255-267). -/
def awsCredGroups : List (String × List (String × AmazonS3ConfigKey)) :=
  [("~/.aws/credentials",
    [("aws_access_key_id = (.*)\n", .AccessKeyId),
     ("aws_secret_access_key = (.*)\n", .SecretAccessKey)])]

/-- Modelled from the spec: `polars_utils::cache::FastFixedCache`, whose
source is not under src/.  The spec describes it as a size-bounded
bucket-to-region map with least-recently-used eviction behind one lock.
Entries are held most-recently-inserted first; insert removes any existing
entry for the key, prepends, and truncates to capacity, evicting the
least-recently-inserted (last) entry when full. -/
structure LruCache where
  entries : List (String × String)
  capacity : Nat
deriving DecidableEq, Repr

/-- Cache lookup (`FastFixedCache::get`, non-mutating as called at
options.rs line 279). -/
def LruCache.get (c : LruCache) (k : String) : Option String :=
  ((c.entries.find? fun e => e.1 == k).map fun e => e.2)

/-- Cache insertion (`FastFixedCache::insert`, options.rs line 310). -/
def LruCache.insert (c : LruCache) (k v : String) : LruCache :=
  ⟨((k, v) :: (c.entries.filter fun e => e.1 != k)).take c.capacity, c.capacity⟩

/-- The initial state of the BUCKET_REGION global
(`FastFixedCache::new(32)`, options.rs lines 44-46). -/
def bucketRegionInit : LruCache :=
  ⟨[], 32⟩

/-- Repeated insertion, for stating the residency bound over any sequence
of build calls that populate the cache. -/
def insertAll (c : LruCache) : List (String × String) → LruCache
  | [] => c
  | (k, v) :: rest => insertAll (c.insert k v) rest

/-- Modelled from the spec: bucket extraction of `CloudLocation::new`
(defined in a sibling file not under src/) — the bucket is the host
component of the URL, the text between "://" and the next '/'. -/
def parseBucket (url : String) : Option String :=
  match takeAfterSep url.data with
  | some rest => some (String.mk (rest.takeWhile fun c => c ≠ '/'))
  | none => none

/-- Outcome of the region network probe (the HEAD request to
https://BUCKET.s3.amazonaws.com, options.rs lines 296-312): either the
transport fails, or a response arrives whose x-amz-bucket-region header is
`regionHeader` (none when the header is absent). -/
inductive ProbeResult where
  | transportError
  | response (regionHeader : Option String)
deriving DecidableEq, Repr

/-- What a successful build_aws call determines: the final builder
configuration, the retry policy handed to `with_retry`, the cache state
after the call, whether the network probe was performed, and whether the
region warning was emitted.  Client-side SDK validation
(`AmazonS3Builder::build`) is external and not modelled. -/
structure BuildAwsResult where
  builder : S3Builder
  retry : RetryConfig
  cache : LruCache
  probed : Bool
  warned : Bool

/-- The builder state after the explicit override loop of build_aws
(options.rs lines 242-246) applied on top of the environment builder. -/
def applyOverrides (env : S3Builder) : Option (List (AmazonS3ConfigKey × String)) → S3Builder
  | none => env
  | some options => options.foldl (fun b kv => b.set kv.1 kv.2) env

/-- The builder state of build_aws after explicit overrides and both
read_config calls (options.rs lines 240-267), before region resolution. -/
def stage2 (env : S3Builder) (fs : String → Option String)
    (capture : String → String → Option String) (opts : CloudOptions) : S3Builder :=
  let b0 := applyOverrides env opts.aws
  let b1 := (readConfig fs capture b0 awsConfigGroups).1
  (readConfig fs capture b1 awsCredGroups).1

/-- `CloudOptions::build_aws` (options.rs lines 239-323).  `env` is
AmazonS3Builder::from_env, `fs`/`capture` the filesystem and regex
collaborators of read_config, `cache` the BUCKET_REGION state at the
lock acquisition, and `probe` the network collaborator's outcome.  When
neither DefaultRegion nor Region is configured: a cache hit supplies the
region; otherwise an Endpoint override forces "us-east-1" with no probe;
otherwise the warning is emitted and the probe runs — a transport error
propagates as an error (`.await?` at line 305), a response with the header
sets the region and populates the cache, a response without it leaves the
region unset. -/
def build_aws (env : S3Builder) (fs : String → Option String)
    (capture : String → String → Option String) (cache : LruCache)
    (probe : ProbeResult) (opts : CloudOptions) (url : String) :
    Except PolarsError BuildAwsResult :=
  let b := stage2 env fs capture opts
  let retry := get_retry_config opts.max_retries
  if (b.get .DefaultRegion).isNone && (b.get .Region).isNone then
    match parseBucket url with
    | none => .error (.ComputeError "invalid cloud location")
    | some bucket =>
      match cache.get bucket with
      | some region => .ok ⟨b.set .Region region, retry, cache, false, false⟩
      | none =>
        if (b.get .Endpoint).isSome then
          .ok ⟨b.set .Region "us-east-1", retry, cache, false, false⟩
        else
          match probe with
          | .transportError => .error (.ComputeError "probe transport error")
          | .response none => .ok ⟨b, retry, cache, true, true⟩
          | .response (some region) =>
            .ok ⟨b.set .Region region, retry, cache.insert bucket region, true, true⟩
  else .ok ⟨b, retry, cache, false, false⟩

/-- Setting a key makes it readable. -/
theorem S3Builder.get_set_self (b : S3Builder) (k : AmazonS3ConfigKey) (v : String) :
    (b.set k v).get k = some v := by
  simp [S3Builder.get, S3Builder.set]

/-- Setting a key leaves every other key unchanged. -/
theorem S3Builder.get_set_ne (b : S3Builder) {j k : AmazonS3ConfigKey} (v : String)
    (h : j ≠ k) : (b.set k v).get j = b.get j := by
  simp [S3Builder.get, S3Builder.set, h]

/-- The inner read_config loop never touches a key that is already set. -/
theorem applyKeys_get_of_isSome (capture : String → String → Option String)
    (keys : List (String × AmazonS3ConfigKey)) (content : String) (b : S3Builder)
    (k : AmazonS3ConfigKey) (h : (b.get k).isSome = true) :
    ((applyKeys capture b keys content).1).get k = b.get k := by
  induction keys generalizing b with
  | nil => rfl
  | cons pk rest ih =>
    obtain ⟨pat, key⟩ := pk
    simp only [applyKeys]
    by_cases hset : (b.get key).isSome = true
    · rw [if_pos hset]
      exact ih b h
    · rw [if_neg hset]
      cases hcap : capture pat content with
      | none => rfl
      | some v =>
        have hne : k ≠ key := by
          intro he
          rw [he] at h
          exact hset h
        have hpre : ((b.set key v).get k).isSome = true := by
          rw [S3Builder.get_set_ne b v hne]
          exact h
        rw [ih (b.set key v) hpre]
        exact S3Builder.get_set_ne b v hne

/-- read_config never changes a key that is already set in the builder. -/
theorem readConfig_get_of_isSome (fs : String → Option String)
    (capture : String → String → Option String)
    (items : List (String × List (String × AmazonS3ConfigKey))) (b : S3Builder)
    (k : AmazonS3ConfigKey) (h : (b.get k).isSome = true) :
    ((readConfig fs capture b items).1).get k = b.get k := by
  induction items generalizing b with
  | nil => rfl
  | cons g rest ih =>
    obtain ⟨path, keys⟩ := g
    simp only [readConfig]
    split
    · exact ih b h
    · split
      · rfl
      · rename_i content hfs
        have hak := applyKeys_get_of_isSome capture keys content b k h
        split
        · rename_i b1 hres
          rw [hres] at hak
          simp only at hak ⊢
          rw [ih b1 (by rw [hak]; exact h)]
          exact hak
        · rename_i b1 hres
          rw [hres] at hak
          simpa using hak

/-- read_config does not attempt to open the file of any group all of whose
target keys are already set (provided every group naming that path is in
that situation, so no other group forces the open). -/
theorem readConfig_not_opened (fs : String → Option String)
    (capture : String → String → Option String)
    (items : List (String × List (String × AmazonS3ConfigKey))) (b : S3Builder)
    (path : String)
    (h : ∀ g ∈ items, g.1 = path → ∀ pk ∈ g.2, (b.get pk.2).isSome = true) :
    path ∉ (readConfig fs capture b items).2 := by
  induction items generalizing b with
  | nil => simp [readConfig]
  | cons g rest ih =>
    obtain ⟨p0, ks0⟩ := g
    simp only [readConfig]
    split
    · exact ih b fun g hg hp => h g (List.mem_cons_of_mem _ hg) hp
    · rename_i hall
      have hne : path ≠ p0 := by
        intro he
        apply hall
        rw [List.all_eq_true]
        intro pk hpk
        exact h (p0, ks0) (List.mem_cons_self _ _) he.symm pk hpk
      split
      · simp only [List.mem_singleton]
        exact hne
      · rename_i content hfs
        split
        · rename_i b1 hres
          have hb1 : ∀ g ∈ rest, g.1 = path → ∀ pk ∈ g.2, (b1.get pk.2).isSome = true := by
            intro g hg hp pk hpk
            have hb := h g (List.mem_cons_of_mem _ hg) hp pk hpk
            have heq := applyKeys_get_of_isSome capture ks0 content b pk.2 hb
            rw [hres] at heq
            simp only at heq
            rw [heq]
            exact hb
          simp only [List.mem_cons, not_or]
          exact ⟨hne, ih b1 hb1⟩
        · rename_i b1 hres
          simp only [List.mem_singleton]
          exact hne

/-- The value of the last pair for a given key in an ordered override
list — later duplicates overwrite earlier ones when applied in order. -/
def lastVal (k : AmazonS3ConfigKey) : List (AmazonS3ConfigKey × String) → Option String
  | [] => none
  | (j, v) :: rest =>
    match lastVal k rest with
    | some w => some w
    | none => if j = k then some v else none

/-- Applying an override list in order leaves each key at its last supplied
value, falling back to the environment builder for keys never supplied. -/
theorem foldl_set_get (l : List (AmazonS3ConfigKey × String)) (env : S3Builder)
    (k : AmazonS3ConfigKey) :
    (l.foldl (fun b kv => b.set kv.1 kv.2) env).get k =
      match lastVal k l with
      | some v => some v
      | none => env.get k := by
  induction l generalizing env with
  | nil => rfl
  | cons kv rest ih =>
    obtain ⟨j, v⟩ := kv
    simp only [List.foldl_cons, lastVal]
    rw [ih (env.set j v)]
    cases lastVal k rest with
    | some w => rfl
    | none =>
      by_cases hj : j = k
      · subst hj
        rw [if_pos rfl]
        exact env.get_set_self j v
      · rw [if_neg hj]
        exact env.get_set_ne v fun he => hj he.symm

/-- After the explicit-override loop and both read_config calls, the Region
key holds the last explicitly supplied region, whatever the environment,
the credential files, or the regex engine contain. -/
theorem stage2_get_region (env : S3Builder) (fs : String → Option String)
    (capture : String → String → Option String) (opts : CloudOptions)
    (l : List (AmazonS3ConfigKey × String)) (r : String)
    (ha : opts.aws = some l) (hl : lastVal .Region l = some r) :
    (stage2 env fs capture opts).get .Region = some r := by
  have h0 : (applyOverrides env opts.aws).get .Region = some r := by
    rw [ha]
    simp only [applyOverrides]
    rw [foldl_set_get, hl]
  have h1 := readConfig_get_of_isSome fs capture awsConfigGroups
    (applyOverrides env opts.aws) .Region (by rw [h0]; rfl)
  rw [h0] at h1
  have h2 := readConfig_get_of_isSome fs capture awsCredGroups
    (readConfig fs capture (applyOverrides env opts.aws) awsConfigGroups).1 .Region
    (by rw [h1]; rfl)
  rw [h1] at h2
  exact h2

/-- Claim C3: an explicitly supplied region key wins over the environment,
the credential files and any discovered region: build_aws succeeds with the
stage-2 builder untouched by region resolution, the effective region is the
explicitly supplied value, and the network probe is not performed (probed
and warned are false, the cache is unchanged). -/
theorem build_aws_explicit_region (env : S3Builder) (fs : String → Option String)
    (capture : String → String → Option String) (cache : LruCache)
    (probe : ProbeResult) (opts : CloudOptions) (url : String)
    (l : List (AmazonS3ConfigKey × String)) (r : String)
    (ha : opts.aws = some l) (hl : lastVal .Region l = some r) :
    build_aws env fs capture cache probe opts url =
      .ok ⟨stage2 env fs capture opts, get_retry_config opts.max_retries, cache, false, false⟩
    ∧ (stage2 env fs capture opts).get .Region = some r := by
  have hr := stage2_get_region env fs capture opts l r ha hl
  refine ⟨?_, hr⟩
  simp [build_aws, hr]

/-- Claim C3 witness: overriding {region: eu-west-1} on s3://my-bucket/key
yields effective region eu-west-1 with no probe, for a concrete empty
environment, absent credential files and empty cache. -/
theorem build_aws_explicit_region_witness :
    ((CloudOptions.default 0).with_aws [(.Region, "eu-west-1")]).aws =
        some [(.Region, "eu-west-1")]
    ∧ lastVal .Region [(.Region, "eu-west-1")] = some "eu-west-1"
    ∧ (build_aws ⟨fun _ => none⟩ (fun _ => none) (fun _ _ => none) bucketRegionInit
          .transportError ((CloudOptions.default 0).with_aws [(.Region, "eu-west-1")])
          "s3://my-bucket/key" =
        .ok ⟨stage2 ⟨fun _ => none⟩ (fun _ => none) (fun _ _ => none)
              ((CloudOptions.default 0).with_aws [(.Region, "eu-west-1")]),
             get_retry_config 2, bucketRegionInit, false, false⟩
      ∧ (stage2 ⟨fun _ => none⟩ (fun _ => none) (fun _ _ => none)
            ((CloudOptions.default 0).with_aws [(.Region, "eu-west-1")])).get .Region =
          some "eu-west-1") :=
  ⟨rfl, rfl,
   build_aws_explicit_region ⟨fun _ => none⟩ (fun _ => none) (fun _ _ => none)
     bucketRegionInit .transportError
     ((CloudOptions.default 0).with_aws [(.Region, "eu-west-1")]) "s3://my-bucket/key"
     [(.Region, "eu-west-1")] "eu-west-1" rfl rfl⟩

/-- Claim C2: with no region configured after overrides, environment and
credential files, a cache miss, and an endpoint override present, build_aws
resolves the region to the fixed fallback "us-east-1" and performs no
network probe. -/
theorem build_aws_endpoint_fallback (env : S3Builder) (fs : String → Option String)
    (capture : String → String → Option String) (cache : LruCache)
    (probe : ProbeResult) (opts : CloudOptions) (url bucket : String)
    (hdr : (stage2 env fs capture opts).get .DefaultRegion = none)
    (hrg : (stage2 env fs capture opts).get .Region = none)
    (hb : parseBucket url = some bucket)
    (hc : cache.get bucket = none)
    (he : ((stage2 env fs capture opts).get .Endpoint).isSome = true) :
    build_aws env fs capture cache probe opts url =
      .ok ⟨(stage2 env fs capture opts).set .Region "us-east-1",
           get_retry_config opts.max_retries, cache, false, false⟩
    ∧ ((stage2 env fs capture opts).set .Region "us-east-1").get .Region =
        some "us-east-1" := by
  refine ⟨?_, S3Builder.get_set_self _ _ _⟩
  simp [build_aws, hdr, hrg, hb, hc, he]

/-- Claim C1 (amended): once the probe is reached (no region configured,
cache miss, no endpoint override), a response lacking the region header is
a soft failure — build_aws succeeds with the region left unset and the
warning emitted — but a transport error is propagated as an error. -/
theorem build_aws_probe_outcomes (env : S3Builder) (fs : String → Option String)
    (capture : String → String → Option String) (cache : LruCache)
    (opts : CloudOptions) (url bucket : String)
    (hdr : (stage2 env fs capture opts).get .DefaultRegion = none)
    (hrg : (stage2 env fs capture opts).get .Region = none)
    (hb : parseBucket url = some bucket)
    (hc : cache.get bucket = none)
    (he : (stage2 env fs capture opts).get .Endpoint = none) :
    build_aws env fs capture cache (.response none) opts url =
      .ok ⟨stage2 env fs capture opts, get_retry_config opts.max_retries, cache, true, true⟩
    ∧ build_aws env fs capture cache .transportError opts url =
        .error (.ComputeError "probe transport error") := by
  constructor
  · simp [build_aws, hdr, hrg, hb, hc, he]
  · simp [build_aws, hdr, hrg, hb, hc, he]

/-- Claim C1 counterexample: at a concrete build call that reaches the
probe (empty environment, no credential files, empty cache, no overrides,
url s3://my-bucket/key), a probe transport error makes build_aws return an
error — it is not absorbed as a soft failure. -/
theorem build_aws_transport_error_counterexample :
    build_aws ⟨fun _ => none⟩ (fun _ => none) (fun _ _ => none) bucketRegionInit
        .transportError (CloudOptions.default 0) "s3://my-bucket/key" =
      .error (.ComputeError "probe transport error") := by
  rfl

/-- Claim C1 witness: the missing-header soft-failure half and the
transport-error half at the same concrete probe-reaching build call. -/
theorem build_aws_probe_outcomes_witness :
    (stage2 ⟨fun _ => none⟩ (fun _ => none) (fun _ _ => none)
        (CloudOptions.default 0)).get .DefaultRegion = none
    ∧ (stage2 ⟨fun _ => none⟩ (fun _ => none) (fun _ _ => none)
        (CloudOptions.default 0)).get .Region = none
    ∧ parseBucket "s3://my-bucket/key" = some "my-bucket"
    ∧ bucketRegionInit.get "my-bucket" = none
    ∧ (stage2 ⟨fun _ => none⟩ (fun _ => none) (fun _ _ => none)
        (CloudOptions.default 0)).get .Endpoint = none
    ∧ (build_aws ⟨fun _ => none⟩ (fun _ => none) (fun _ _ => none) bucketRegionInit
          (.response none) (CloudOptions.default 0) "s3://my-bucket/key" =
        .ok ⟨stage2 ⟨fun _ => none⟩ (fun _ => none) (fun _ _ => none)
              (CloudOptions.default 0), get_retry_config 2, bucketRegionInit, true, true⟩
      ∧ build_aws ⟨fun _ => none⟩ (fun _ => none) (fun _ _ => none) bucketRegionInit
          .transportError (CloudOptions.default 0) "s3://my-bucket/key" =
          .error (.ComputeError "probe transport error")) :=
  ⟨rfl, rfl, rfl, rfl, rfl,
   build_aws_probe_outcomes ⟨fun _ => none⟩ (fun _ => none) (fun _ _ => none)
     bucketRegionInit (CloudOptions.default 0) "s3://my-bucket/key" "my-bucket"
     rfl rfl rfl rfl rfl⟩

/-- Claim C2 witness: a concrete environment carrying only an endpoint
override, no region anywhere, empty cache: the resolved region is
us-east-1 and the probe is not performed (even a would-be transport error
is never consulted). -/
theorem build_aws_endpoint_fallback_witness :
    (stage2 ⟨fun k => if k = .Endpoint then some "http://localhost:9000" else none⟩
        (fun _ => none) (fun _ _ => none) (CloudOptions.default 0)).get .DefaultRegion = none
    ∧ (stage2 ⟨fun k => if k = .Endpoint then some "http://localhost:9000" else none⟩
        (fun _ => none) (fun _ _ => none) (CloudOptions.default 0)).get .Region = none
    ∧ parseBucket "s3://my-bucket/key" = some "my-bucket"
    ∧ bucketRegionInit.get "my-bucket" = none
    ∧ ((stage2 ⟨fun k => if k = .Endpoint then some "http://localhost:9000" else none⟩
        (fun _ => none) (fun _ _ => none) (CloudOptions.default 0)).get .Endpoint).isSome = true
    ∧ (build_aws ⟨fun k => if k = .Endpoint then some "http://localhost:9000" else none⟩
          (fun _ => none) (fun _ _ => none) bucketRegionInit .transportError
          (CloudOptions.default 0) "s3://my-bucket/key" =
        .ok ⟨(stage2 ⟨fun k => if k = .Endpoint then some "http://localhost:9000" else none⟩
                (fun _ => none) (fun _ _ => none) (CloudOptions.default 0)).set .Region
                  "us-east-1",
             get_retry_config 2, bucketRegionInit, false, false⟩
      ∧ ((stage2 ⟨fun k => if k = .Endpoint then some "http://localhost:9000" else none⟩
            (fun _ => none) (fun _ _ => none) (CloudOptions.default 0)).set .Region
              "us-east-1").get .Region = some "us-east-1") :=
  ⟨rfl, rfl, rfl, rfl, rfl,
   build_aws_endpoint_fallback
     ⟨fun k => if k = .Endpoint then some "http://localhost:9000" else none⟩
     (fun _ => none) (fun _ _ => none) bucketRegionInit .transportError
     (CloudOptions.default 0) "s3://my-bucket/key" "my-bucket" rfl rfl rfl rfl rfl⟩

/-- Claim C7: a credential-file fallback group whose target keys are all
already set is skipped: its file is never opened (provided no other group
in the same call targets that path with an unset key) and all of the
group's target keys keep their values. -/
theorem read_config_skips_satisfied_group (fs : String → Option String)
    (capture : String → String → Option String) (b : S3Builder)
    (items : List (String × List (String × AmazonS3ConfigKey)))
    (path : String) (keys : List (String × AmazonS3ConfigKey))
    (hmem : (path, keys) ∈ items)
    (hall : ∀ g ∈ items, g.1 = path → ∀ pk ∈ g.2, (b.get pk.2).isSome = true) :
    path ∉ (readConfig fs capture b items).2
    ∧ ∀ pk ∈ keys, ((readConfig fs capture b items).1).get pk.2 = b.get pk.2 := by
  refine ⟨readConfig_not_opened fs capture items b path hall, ?_⟩
  intro pk hpk
  exact readConfig_get_of_isSome fs capture items b pk.2 (hall (path, keys) hmem rfl pk hpk)

/-- Claim C7 witness: with the region already set in the builder, the
region group of build_aws never opens ~/.aws/config — even though the file
exists and would match — and the region value is untouched. -/
theorem read_config_skips_satisfied_group_witness :
    ("~/.aws/config", [("region = (.*)\n", AmazonS3ConfigKey.Region)]) ∈ awsConfigGroups
    ∧ (∀ g ∈ awsConfigGroups, g.1 = "~/.aws/config" → ∀ pk ∈ g.2,
        ((S3Builder.mk fun k => if k = .Region then some "eu-west-1" else none).get
          pk.2).isSome = true)
    ∧ ("~/.aws/config" ∉
        (readConfig (fun _ => some "region = us-west-2\n") (fun _ _ => some "us-west-2")
          ⟨fun k => if k = .Region then some "eu-west-1" else none⟩ awsConfigGroups).2
      ∧ ∀ pk ∈ [("region = (.*)\n", AmazonS3ConfigKey.Region)],
          ((readConfig (fun _ => some "region = us-west-2\n") (fun _ _ => some "us-west-2")
            ⟨fun k => if k = .Region then some "eu-west-1" else none⟩ awsConfigGroups).1).get
              pk.2 =
            (S3Builder.mk fun k => if k = .Region then some "eu-west-1" else none).get pk.2) :=
  ⟨by decide, by decide,
   read_config_skips_satisfied_group (fun _ => some "region = us-west-2\n")
     (fun _ _ => some "us-west-2")
     ⟨fun k => if k = .Region then some "eu-west-1" else none⟩ awsConfigGroups
     "~/.aws/config" [("region = (.*)\n", AmazonS3ConfigKey.Region)] (by decide) (by decide)⟩

/-- One cache insertion keeps the entry list within capacity. -/
theorem LruCache.insert_length_le (c : LruCache) (k v : String) :
    (c.insert k v).entries.length ≤ c.capacity := by
  simp only [LruCache.insert, List.length_take]
  exact min_le_left _ _

/-- insertAll preserves the capacity field. -/
theorem insertAll_capacity (l : List (String × String)) (c : LruCache) :
    (insertAll c l).capacity = c.capacity := by
  induction l generalizing c with
  | nil => rfl
  | cons kv rest ih =>
    obtain ⟨k, v⟩ := kv
    simp only [insertAll]
    rw [ih]
    rfl

/-- Any sequence of insertions keeps a within-capacity cache within
capacity. -/
theorem insertAll_length_le (l : List (String × String)) (c : LruCache)
    (h : c.entries.length ≤ c.capacity) :
    (insertAll c l).entries.length ≤ c.capacity := by
  induction l generalizing c with
  | nil => exact h
  | cons kv rest ih =>
    obtain ⟨k, v⟩ := kv
    simp only [insertAll]
    have := ih (c.insert k v) (c.insert_length_le k v)
    rwa [show (c.insert k v).capacity = c.capacity from rfl] at this

/-- Claim C9: the bucket-to-region cache never exceeds its bound of 32
entries under any sequence of insertions; when full, inserting a fresh
bucket evicts exactly the least-recently-inserted entry; and a lookup
immediately after an insertion for the same bucket returns the inserted
region. -/
theorem bucket_region_cache_spec :
    (∀ l : List (String × String), (insertAll bucketRegionInit l).entries.length ≤ 32)
    ∧ (∀ (c : LruCache) (k v : String), c.entries.length = c.capacity → 0 < c.capacity →
        (∀ e ∈ c.entries, e.1 ≠ k) →
        (c.insert k v).entries = (k, v) :: c.entries.dropLast)
    ∧ (∀ (c : LruCache) (k v : String), 0 < c.capacity →
        (c.insert k v).get k = some v) := by
  refine ⟨?_, ?_, ?_⟩
  · intro l
    exact insertAll_length_le l bucketRegionInit (by decide)
  · intro c k v hlen hpos hfresh
    have hfilter : (c.entries.filter fun e => e.1 != k) = c.entries := by
      rw [List.filter_eq_self]
      intro e he
      simpa using hfresh e he
    obtain ⟨m, hm⟩ := Nat.exists_eq_succ_of_ne_zero (Nat.pos_iff_ne_zero.mp hpos)
    simp only [LruCache.insert, hfilter, hm, List.take_succ_cons]
    rw [List.dropLast_eq_take]
    have : c.entries.length - 1 = m := by
      rw [hlen, hm]
      rfl
    rw [this]
  · intro c k v hpos
    obtain ⟨m, hm⟩ := Nat.exists_eq_succ_of_ne_zero (Nat.pos_iff_ne_zero.mp hpos)
    simp [LruCache.insert, LruCache.get, hm, List.take_succ_cons, List.find?]

/-- Claim C9 witness: a full one-slot cache holding bucket a evicts it on
inserting fresh bucket b, and looking b up right after returns its
region. -/
theorem bucket_region_cache_spec_witness :
    (LruCache.mk [("a", "ra")] 1).entries.length = (LruCache.mk [("a", "ra")] 1).capacity
    ∧ 0 < (LruCache.mk [("a", "ra")] 1).capacity
    ∧ (∀ e ∈ (LruCache.mk [("a", "ra")] 1).entries, e.1 ≠ "b")
    ∧ ((LruCache.mk [("a", "ra")] 1).insert "b" "rb").entries =
        ("b", "rb") :: (LruCache.mk [("a", "ra")] 1).entries.dropLast
    ∧ ((LruCache.mk [("a", "ra")] 1).insert "b" "rb").get "b" = some "rb" :=
  ⟨by decide, by decide, by decide,
   bucket_region_cache_spec.2.1 (LruCache.mk [("a", "ra")] 1) "b" "rb"
     (by decide) (by decide) (by decide),
   bucket_region_cache_spec.2.2 (LruCache.mk [("a", "ra")] 1) "b" "rb" (by decide)⟩

/-- Claim C8: default options carry max_retries 2, and with_max_retries n
yields options whose retry policy at client construction has exactly n max
retries, the default backoff, and the fixed 10-second retry timeout. -/
theorem retry_config_spec : ∀ ttl n : Nat,
    (CloudOptions.default ttl).max_retries = 2
    ∧ ((CloudOptions.default ttl).with_max_retries n).max_retries = n
    ∧ get_retry_config (((CloudOptions.default ttl).with_max_retries n).max_retries) =
        ⟨BackoffConfig.default, n, 10⟩ :=
  fun _ _ => ⟨rfl, rfl, rfl⟩

/-- Claim C4: typing an override list succeeds when every key parses,
retaining every pair in input order (expressed by the pairwise Forall₂
relation); with an unrecognized key present, it stops at the first one and
fails with an error naming exactly that key, returning no partial
result. -/
theorem parsed_untyped_config_spec {T : Type} (parseKey : String → Option T) :
    (∀ cfg : List (String × String), (∀ p ∈ cfg, (parseKey p.1).isSome = true) →
      ∃ tl, parsed_untyped_config parseKey cfg = .ok tl
        ∧ List.Forall₂ (fun p q => parseKey p.1 = some q.1 ∧ q.2 = p.2) cfg tl)
    ∧ (∀ (pre : List (String × String)) (k v : String) (post : List (String × String)),
        (∀ p ∈ pre, (parseKey p.1).isSome = true) → parseKey k = none →
        parsed_untyped_config parseKey (pre ++ (k, v) :: post) =
          .error (.ComputeError ("unknown configuration key: " ++ k))) := by
  constructor
  · intro cfg hok
    induction cfg with
    | nil => exact ⟨[], rfl, List.Forall₂.nil⟩
    | cons p rest ih =>
      obtain ⟨key, val⟩ := p
      have hk : (parseKey key).isSome = true := hok (key, val) (List.mem_cons_self _ _)
      obtain ⟨tk, htk⟩ := Option.isSome_iff_exists.mp hk
      obtain ⟨tl, hok1, hf⟩ := ih fun p hp => hok p (List.mem_cons_of_mem _ hp)
      refine ⟨(tk, val) :: tl, ?_, List.Forall₂.cons ⟨htk, rfl⟩ hf⟩
      simp only [parsed_untyped_config]
      rw [htk, hok1]
  · intro pre k v post hpre hk
    induction pre with
    | nil =>
      simp only [List.nil_append, parsed_untyped_config]
      rw [hk]
    | cons p rest ih =>
      obtain ⟨key, val⟩ := p
      have hks : (parseKey key).isSome = true := hpre (key, val) (List.mem_cons_self _ _)
      obtain ⟨tk, htk⟩ := Option.isSome_iff_exists.mp hks
      simp only [List.cons_append, parsed_untyped_config]
      rw [htk]
      simp only [List.append_eq]
      rw [ih fun p hp => hpre p (List.mem_cons_of_mem _ hp)]

/-- Claim C4 witness: for the AWS key enumeration, an override list whose
second key is unrecognized fails with the error naming that key, the first
(valid) pair notwithstanding. -/
theorem parsed_untyped_config_spec_witness :
    (∀ p ∈ [("region", "eu-west-1")], (parseAwsKey p.1).isSome = true)
    ∧ parseAwsKey "bogus" = none
    ∧ parsed_untyped_config parseAwsKey ([("region", "eu-west-1")] ++ ("bogus", "x") :: []) =
        .error (.ComputeError ("unknown configuration key: " ++ "bogus")) :=
  ⟨by decide, rfl,
   (parsed_untyped_config_spec parseAwsKey).2 [("region", "eu-west-1")] "bogus" "x" []
     (by decide) rfl⟩

/-- Claim C5: scheme classification maps exactly s3/s3a to S3, az, azure,
adl, abfs, abfss to Azure, gs, gcp, gcs to GCS, file to Local-File,
http/https to HTTP, and fails with the invalid-input ComputeError on every
other scheme. -/
theorem cloud_type_from_scheme_spec :
    (CloudType.from_scheme "s3" = .ok .Aws ∧ CloudType.from_scheme "s3a" = .ok .Aws
     ∧ CloudType.from_scheme "az" = .ok .Azure ∧ CloudType.from_scheme "azure" = .ok .Azure
     ∧ CloudType.from_scheme "adl" = .ok .Azure ∧ CloudType.from_scheme "abfs" = .ok .Azure
     ∧ CloudType.from_scheme "abfss" = .ok .Azure ∧ CloudType.from_scheme "gs" = .ok .Gcp
     ∧ CloudType.from_scheme "gcp" = .ok .Gcp ∧ CloudType.from_scheme "gcs" = .ok .Gcp
     ∧ CloudType.from_scheme "file" = .ok .File ∧ CloudType.from_scheme "http" = .ok .Http
     ∧ CloudType.from_scheme "https" = .ok .Http)
    ∧ ∀ s : String,
        s ∉ (["s3", "s3a", "az", "azure", "adl", "abfs", "abfss", "gs", "gcp", "gcs",
              "file", "http", "https"] : List String) →
        CloudType.from_scheme s = .error (.ComputeError "unknown url scheme") := by
  refine ⟨by decide, ?_⟩
  intro s hs
  simp only [List.mem_cons, List.mem_singleton, not_or] at hs
  obtain ⟨n1, n2, n3, n4, n5, n6, n7, n8, n9, n10, n11, n12, n13, -⟩ := hs
  simp [CloudType.from_scheme, n1, n2, n3, n4, n5, n6, n7, n8, n9, n10, n11, n12, n13]

/-- Claim C5 witness: the ftp scheme is outside the mapping and is
rejected. -/
theorem cloud_type_from_scheme_spec_witness :
    "ftp" ∉ (["s3", "s3a", "az", "azure", "adl", "abfs", "abfss", "gs", "gcp", "gcs",
              "file", "http", "https"] : List String)
    ∧ CloudType.from_scheme "ftp" = .error (.ComputeError "unknown url scheme") :=
  ⟨by decide, cloud_type_from_scheme_spec.2 "ftp" (by decide)⟩

/-- Claim C10: from_untyped_config returns the default options for every
URL classified Local-File or HTTP, discarding the supplied pairs without
validating their keys, while the same unknown key is a hard error under an
S3 URL. -/
theorem from_untyped_config_file_http_spec
    (parseAzureKey : String → Option AzureConfigKey)
    (parseGcpKey : String → Option GoogleConfigKey)
    (ttl : Nat) (url : String) (config : List (String × String))
    (h : CloudType.from_str url = .ok .File ∨ CloudType.from_str url = .ok .Http) :
    CloudOptions.from_untyped_config parseAzureKey parseGcpKey ttl url config =
      .ok (CloudOptions.default ttl)
    ∧ ∀ k v : String, parseAwsKey k = none →
        CloudOptions.from_untyped_config parseAzureKey parseGcpKey ttl
            "s3://bucket/key" [(k, v)] =
          .error (.ComputeError ("unknown configuration key: " ++ k)) := by
  constructor
  · cases h with
    | inl hf => simp [CloudOptions.from_untyped_config, hf]
    | inr hh => simp [CloudOptions.from_untyped_config, hh]
  · intro k v hk
    have hs3 : CloudType.from_str "s3://bucket/key" = .ok .Aws := rfl
    simp [CloudOptions.from_untyped_config, hs3, parsed_untyped_config, hk]

/-- Claim C10 witness: an unknown key is silently discarded for a file://
URL (and an http:// URL), yet rejected for an s3:// URL. -/
theorem from_untyped_config_file_http_spec_witness :
    (CloudType.from_str "file:///tmp/data.csv" = .ok .File
      ∨ CloudType.from_str "file:///tmp/data.csv" = .ok .Http)
    ∧ parseAwsKey "bogus" = none
    ∧ (CloudOptions.from_untyped_config (fun _ => none) (fun _ => none) 0
          "file:///tmp/data.csv" [("bogus", "x")] = .ok (CloudOptions.default 0)
      ∧ ∀ k v : String, parseAwsKey k = none →
          CloudOptions.from_untyped_config (fun _ => none) (fun _ => none) 0
              "s3://bucket/key" [(k, v)] =
            .error (.ComputeError ("unknown configuration key: " ++ k)))
    ∧ CloudOptions.from_untyped_config (fun _ => none) (fun _ => none) 0
        "http://host/data.csv" [("bogus", "x")] = .ok (CloudOptions.default 0) :=
  ⟨Or.inl rfl, rfl,
   from_untyped_config_file_http_spec (fun _ => none) (fun _ => none) 0
     "file:///tmp/data.csv" [("bogus", "x")] (Or.inl rfl),
   (from_untyped_config_file_http_spec (fun _ => none) (fun _ => none) 0
     "http://host/data.csv" [("bogus", "x")] (Or.inr rfl)).1⟩

/-- Decoding past a non-percent head character just keeps it. -/
theorem pdecode_cons (c : Char) (xs : List Char) (h : c ≠ '%') :
    pdecode (c :: xs) = c :: pdecode xs := by
  match xs with
  | [] => rfl
  | [d] => rfl
  | d :: e :: r =>
    simp only [pdecode]
    rw [if_neg fun hcon => h hcon.1]

/-- Percent-decoding undoes percent-encoding on percent-free input. -/
theorem pdecode_pencode (l : List Char) (h : '%' ∉ l) : pdecode (pencode l) = l := by
  induction l with
  | nil => rfl
  | cons c t ih =>
    have hc : c ≠ '%' := fun he => h (he ▸ List.mem_cons_self c t)
    have ht : '%' ∉ t := fun hm => h (List.mem_cons_of_mem c hm)
    by_cases hsp : c = ' '
    · subst hsp
      have he : pencode (' ' :: t) = '%' :: '2' :: '0' :: pencode t := by
        simp [pencode]
      rw [he]
      have hd : pdecode ('%' :: '2' :: '0' :: pencode t) = ' ' :: pdecode (pencode t) := by
        simp [pdecode]
      rw [hd, ih ht]
    · have he : pencode (c :: t) = c :: pencode t := by
        simp [pencode, hsp]
      rw [he, pdecode_cons c _ hc, ih ht]

/-- String concatenation concatenates the underlying character lists. -/
theorem string_append_data (a b : String) : (a ++ b).data = a.data ++ b.data :=
  rfl

/-- Re-parsing file:// followed by an encoded path decodes the path. -/
theorem toLocalPath_encoded (l : List Char) :
    toLocalPath ("file://" ++ String.mk l) = some (String.mk (pdecode l)) :=
  rfl

/-- Claim C6: a relative input (no scheme separator, not starting with '/')
whose characters, like the working directory's, are percent-free, parses to
the file:// URL of the input resolved against the working directory with
percent-encoding (spaces become %20), and re-parsing that URL as a file
path yields the same absolute path. -/
theorem parse_url_relative_roundtrip (urlParseExt : String → Option String)
    (cwd input : String)
    (hsep : hasSchemeSep input.data = false)
    (habs : startsWithSlash input.data = false)
    (hc : '%' ∉ cwd.data) (hi : '%' ∉ input.data) :
    parse_url urlParseExt cwd input =
      some ("file://" ++ String.mk (pencode (cwd ++ "/" ++ input).data))
    ∧ (parse_url urlParseExt cwd input).bind toLocalPath = some (cwd ++ "/" ++ input) := by
  have h1 : parse_url urlParseExt cwd input =
      some ("file://" ++ String.mk (pencode (cwd ++ "/" ++ input).data)) := by
    simp [parse_url, hsep, habs]
  refine ⟨h1, ?_⟩
  rw [h1]
  simp only [Option.some_bind]
  rw [toLocalPath_encoded]
  have hmem : '%' ∉ (cwd ++ "/" ++ input).data := by
    rw [string_append_data, string_append_data]
    simp only [List.mem_append]
    rintro ((hin | hin) | hin)
    · exact hc hin
    · exact absurd hin (by decide)
    · exact hi hin
  rw [pdecode_pencode _ hmem]

/-- Claim C6 witness: parsing the relative input with a space against
/home/user produces file:///home/user/my%20data.csv, and re-parsing that
URL yields /home/user/my data.csv back. -/
theorem parse_url_relative_roundtrip_witness :
    hasSchemeSep "my data.csv".data = false
    ∧ startsWithSlash "my data.csv".data = false
    ∧ '%' ∉ "/home/user".data
    ∧ '%' ∉ "my data.csv".data
    ∧ (parse_url (fun _ => none) "/home/user" "my data.csv" =
        some ("file://" ++
          String.mk (pencode ("/home/user" ++ "/" ++ "my data.csv").data))
      ∧ (parse_url (fun _ => none) "/home/user" "my data.csv").bind toLocalPath =
          some ("/home/user" ++ "/" ++ "my data.csv")) :=
  ⟨by decide, by decide, by decide, by decide,
   parse_url_relative_roundtrip (fun _ => none) "/home/user" "my data.csv"
     (by decide) (by decide) (by decide) (by decide)⟩

end PolarsCloud
